import Mathlib

/-!
Formal model of the ChatSystemBot repository: the retrieval core (vector
store, retrieval pipeline, generation orchestrator) and the React
frontend's submit logic, with theorems checking the specification's
claims against this model.

The retrieval core (`backend/vector_db.py`, `backend/rag_system.py`,
`backend/main.py`) is referenced by the repository's README but its
sources are not present in the repository snapshot; the store, pipeline
and orchestrator below are therefore modelled from the specification's
own words (each such definition carries a doc comment saying so).
The frontend model is transcribed from `frontend/src/App.jsx`, which is
present. Floating-point numbers are idealised as real numbers.
-/

namespace ChatSystemBot

/-- Modelled from the spec: the error taxonomy of §7 for the missing
backend core (`vector_db.py` / `rag_system.py`). -/
inductive VError where
  | DimensionMismatch
  | LengthMismatch
  | InvalidK
  | EmbeddingFailure
  | GenerationFailure
  | SerializationFailure
  deriving DecidableEq

/-- Modelled from the spec: a stored document (§3) of the missing
`vector_db.py` — id assigned by the store, raw vector, caller-supplied
metadata, opaque to the store and hence a type parameter `μ`. -/
structure Document (μ : Type) where
  id : String
  vector : List ℝ
  metadata : μ

/-- Modelled from the spec: the VectorStore state (§3) of the missing
`vector_db.py` — a fixed dimension and the documents in insertion
order, plus the counter from which monotonically increasing ids are
assigned. -/
structure VectorStore (μ : Type) where
  dimension : Nat
  documents : List (Document μ)
  nextId : Nat

/-- Modelled from the spec: a search hit (§3) — document id, similarity
score, metadata; computed per query, never persisted. -/
structure SearchHit (μ : Type) where
  document_id : String
  score : ℝ
  metadata : μ

variable {μ : Type}

/-- Dot product of two vectors represented as lists of reals. -/
def dot (a b : List ℝ) : ℝ := (List.zipWith (fun x y => x * y) a b).sum

/-- Sum of squares of the entries of a vector. -/
def sumSq (v : List ℝ) : ℝ := (v.map (fun x => x * x)).sum

/-- L2 norm of a vector. -/
noncomputable def l2norm (v : List ℝ) : ℝ := Real.sqrt (sumSq v)

/-- Modelled from the spec: scaling to unit L2 norm (§4.1) in the
missing `vector_db.py`; a vector with zero norm is treated as an
already-normalized zero vector and is returned unchanged. -/
noncomputable def normalize (v : List ℝ) : List ℝ :=
  if l2norm v = 0 then v else v.map (fun x => x / l2norm v)

/-- Modelled from the spec: the similarity score of §4.1 — the dot
product of the normalized query with the normalized stored vector. -/
noncomputable def score (q v : List ℝ) : ℝ := dot (normalize q) (normalize v)

/-- Boolean comparator ordering hits by descending score; used with the
stable merge sort, so equal scores keep insertion order. -/
noncomputable def hitLE (a b : SearchHit μ) : Bool := decide (b.score ≤ a.score)

/-- The hit a given query derives from a stored document. -/
noncomputable def docHit (q : List ℝ) (d : Document μ) : SearchHit μ :=
  { document_id := d.id, score := score q d.vector, metadata := d.metadata }

/-- Modelled from the spec: the full ranked hit list of §4.1 — one hit
per stored document, stably sorted by descending score. -/
noncomputable def rankedHits (s : VectorStore μ) (q : List ℝ) : List (SearchHit μ) :=
  (s.documents.map (docHit q)).mergeSort hitLE

/-- Modelled from the spec: `search(query_vector, k)` of §4.1 in the
missing `vector_db.py` — dimension check, `k` check, then the top `k`
of the stably ranked hits. The state is returned alongside the result;
it is never changed by a search. -/
noncomputable def search (s : VectorStore μ) (q : List ℝ) (k : Int) :
    Except VError (List (SearchHit μ)) × VectorStore μ :=
  if q.length ≠ s.dimension then (.error .DimensionMismatch, s)
  else if k ≤ 0 then (.error .InvalidK, s)
  else (.ok ((rankedHits s q).take k.toNat), s)

/-- Modelled from the spec: `insert(vector, metadata)` of §4.1 in the
missing `vector_db.py` — reject a wrong-length vector before any
mutation, otherwise append a document with a freshly assigned id. -/
def insert (s : VectorStore μ) (v : List ℝ) (m : μ) :
    Except VError String × VectorStore μ :=
  if v.length ≠ s.dimension then (.error .DimensionMismatch, s)
  else
    (.ok (toString s.nextId),
     { s with
        documents := s.documents ++ [{ id := toString s.nextId, vector := v, metadata := m }],
        nextId := s.nextId + 1 })

/-- Sequential insertion of already-validated vectors, used by
`batch_insert` after its validation pass. -/
def insertAll : VectorStore μ → List (List ℝ) → List μ → List String × VectorStore μ
  | s, [], _ => ([], s)
  | s, _ :: _, [] => ([], s)
  | s, v :: vs, m :: ms =>
    match insert s v m with
    | (.ok i, s₁) =>
      let r := insertAll s₁ vs ms
      (i :: r.1, r.2)
    | (.error _, s₁) => ([], s₁)

/-- Modelled from the spec: `batch_insert(vectors, metadatas)` of §4.1
in the missing `vector_db.py` — all validation (matching sequence
lengths, every vector of dimension D) happens before any mutation, so a
failing batch leaves the store exactly as it was. -/
def batch_insert (s : VectorStore μ) (vs : List (List ℝ)) (ms : List μ) :
    Except VError (List String) × VectorStore μ :=
  if vs.length ≠ ms.length then (.error .LengthMismatch, s)
  else if vs.any (fun v => decide (v.length ≠ s.dimension)) then
    (.error .DimensionMismatch, s)
  else
    let r := insertAll s vs ms
    (.ok r.1, r.2)

/-- Modelled from the spec: a serialized document record inside the
persistence blob (§6). -/
structure SavedDocument (μ : Type) where
  id : String
  vector : List ℝ
  metadata : μ

/-- Modelled from the spec: the self-describing persistence blob of §6
produced by `save` — the dimension plus the full ordered document
list, vectors at full precision. -/
structure Blob (μ : Type) where
  dimension : Nat
  documents : List (SavedDocument μ)

/-- Modelled from the spec: `save()` of §4.1 — serializes the complete
store state. -/
def save (s : VectorStore μ) : Blob μ :=
  { dimension := s.dimension,
    documents := s.documents.map fun d =>
      { id := d.id, vector := d.vector, metadata := d.metadata } }

/-- Modelled from the spec: `load(blob)` of §4.1 in the missing
`vector_db.py`. A malformed blob — one whose declared dimension differs
from the store's construction dimension (which by §3 never changes over
the store's lifetime) or whose documents are inconsistent with its
declared dimension — is rejected with `SerializationFailure` (§7) and
leaves the state untouched; otherwise all prior state is replaced by
the blob's contents. -/
def load (s : VectorStore μ) (b : Blob μ) : Except VError Unit × VectorStore μ :=
  if b.dimension ≠ s.dimension then (.error .SerializationFailure, s)
  else if b.documents.any (fun d => decide (d.vector.length ≠ b.dimension)) then
    (.error .SerializationFailure, s)
  else
    (.ok (),
     { dimension := b.dimension,
       documents := b.documents.map fun d =>
         { id := d.id, vector := d.vector, metadata := d.metadata },
       nextId := b.documents.length })

/-- Modelled from the spec: `stats()` of §4.1 — total documents and
dimension. -/
def stats (s : VectorStore μ) : Nat × Nat := (s.documents.length, s.dimension)

/-- One public operation of the store, for stating lifetime invariants. -/
inductive StoreOp (μ : Type) where
  | insertOp (v : List ℝ) (m : μ)
  | batchInsertOp (vs : List (List ℝ)) (ms : List μ)
  | searchOp (q : List ℝ) (k : Int)
  | saveOp
  | loadOp (b : Blob μ)
  | statsOp

/-- The state reached after one operation (results discarded). -/
noncomputable def applyOp (s : VectorStore μ) : StoreOp μ → VectorStore μ
  | .insertOp v m => (insert s v m).2
  | .batchInsertOp vs ms => (batch_insert s vs ms).2
  | .searchOp q k => (search s q k).2
  | .saveOp => s
  | .loadOp b => (load s b).2
  | .statsOp => s

/-- The state reached after a sequence of operations. -/
noncomputable def runOps (s : VectorStore μ) (ops : List (StoreOp μ)) : VectorStore μ :=
  ops.foldl applyOp s

/-- The store invariant of §3: every stored vector has the store's
dimension (vacuously true when no documents are held). -/
def WF (s : VectorStore μ) : Prop :=
  ∀ d ∈ s.documents, d.vector.length = s.dimension

/-- Modelled from the spec: `retrieve(query_text, k)` of §4.2 in the
missing `rag_system.py` — embed via the external capability `enc`
(`none` models a capability error), reject a wrong-dimension embedding
as `EmbeddingFailure`, then delegate to the store's search. -/
noncomputable def retrieve (enc : String → Option (List ℝ)) (s : VectorStore μ)
    (qt : String) (k : Int) : Except VError (List (SearchHit μ)) :=
  match enc qt with
  | none => .error .EmbeddingFailure
  | some v => if v.length ≠ s.dimension then .error .EmbeddingFailure else (search s v k).1

/-- Modelled from the spec: the augmented-prompt template of §4.3 in
the missing `rag_system.py` — retrieved texts in ranked order, each
delimited, followed by the question; with zero hits the prompt degrades
to the question alone. -/
def buildPrompt (textOf : μ → String) (hits : List (SearchHit μ)) (question : String) : String :=
  if hits.isEmpty then question
  else
    "Context:\n" ++ String.intercalate "\n---\n" (hits.map fun h => textOf h.metadata) ++
      "\n\nQuestion: " ++ question

/-- Modelled from the spec: the minimal answer sanity check of §4.3 —
non-empty, and below a configured maximum length. -/
def sanityCheck (maxLen : Nat) (answer : String) : Bool :=
  decide (answer.length ≠ 0) && decide (answer.length ≤ maxLen)

/-- Modelled from the spec: the per-call terminal states of the
orchestrator (§4.3). -/
inductive RAGOutcome (μ : Type) where
  | Success (answer : String) (retrieved : List (SearchHit μ))
  | RetrievalFailed (e : VError)
  | GenerationFailed (e : VError)

/-- Modelled from the spec: `query(query_text, k)` of §4.3 in the
missing `rag_system.py` — retrieve, build the augmented prompt, call
the external generation capability `gen` (`none` models an error or a
timeout), apply the sanity check, and return a single combined outcome
for the call. -/
noncomputable def query (enc : String → Option (List ℝ)) (gen : String → Option String)
    (textOf : μ → String) (maxLen : Nat) (s : VectorStore μ) (qt : String) (k : Int) :
    RAGOutcome μ :=
  match retrieve enc s qt k with
  | .error e => .RetrievalFailed e
  | .ok hits =>
    match gen (buildPrompt textOf hits qt) with
    | none => .GenerationFailed .GenerationFailure
    | some a =>
      if sanityCheck maxLen a then .Success a hits else .GenerationFailed .GenerationFailure

/-- One retrieved document as delivered in a `/query` response and
rendered by the frontend (`doc.id`, `doc.score`, `doc.metadata.text` in
`App.jsx`). -/
structure RetrievedDoc where
  id : String
  score : ℝ
  text : String

/-- The body of a successful `/query` response as read by `App.jsx`
(`data.answer`, `data.retrieved_documents`). -/
structure QueryResponse where
  answer : String
  retrieved_documents : List RetrievedDoc

/-- A chat message as kept in the `messages` state of `App.jsx`:
`type` is "user", "assistant" or "error"; `retrievedDocs` is only set
on assistant messages. The timestamp field is wall-clock time and is
not modelled. -/
structure ChatMessage where
  type : String
  content : String
  retrievedDocs : Option (List RetrievedDoc)

/-- The component state of `RAGChatInterface` in `App.jsx` relevant to
submission: `messages`, `input`, `loading`, `apiUrl`. -/
structure AppState where
  messages : List ChatMessage
  input : String
  loading : Bool
  apiUrl : String

/-- The synchronous head of `handleSubmit` in `App.jsx`: the guard
`if (!input.trim() || loading) return;`, then the optimistic append of
the user message, clearing of the input, setting of the loading flag,
and the issuing of the POST `/query` request with body
`{ query: input, k: 3 }`. The second component is the issued request
(query text and k), `none` when no request is made. -/
def handleSubmitStart (s : AppState) : AppState × Option (String × Nat) :=
  if s.input.trim = "" ∨ s.loading = true then (s, none)
  else
    ({ s with
        messages := s.messages ++ [{ type := "user", content := s.input, retrievedDocs := none }],
        input := "",
        loading := true },
     some (s.input, 3))

/-- The response branch of `handleSubmit` in `App.jsx`: build the
assistant message with `content: data.answer` and
`retrievedDocs: data.retrieved_documents`, append it, and clear the
loading flag (the `finally` block). -/
def handleSubmitSuccess (s : AppState) (data : QueryResponse) : AppState :=
  { s with
      messages := s.messages ++
        [{ type := "assistant", content := data.answer,
           retrievedDocs := some data.retrieved_documents }],
      loading := false }

/-- The catch branch of `handleSubmit` in `App.jsx`: append an error
message naming the backend URL and clear the loading flag. -/
def handleSubmitFailure (s : AppState) (emsg : String) : AppState :=
  { s with
      messages := s.messages ++
        [{ type := "error",
           content := "Error: " ++ emsg ++ ". Make sure the backend is running at " ++ s.apiUrl,
           retrievedDocs := none }],
      loading := false }

/-- The text the message list renders for a message, from
`<p className="whitespace-pre-wrap">\x7bmessage.content\x7d</p>` in
`App.jsx`: the stored content, verbatim, for every message type. -/
def renderedText (m : ChatMessage) : String := m.content

/-! Numeric helper lemmas about `dot`, `sumSq`, `l2norm`, `normalize`
and `score`. -/

lemma dot_eq_sum_range : ∀ (a b : List ℝ), a.length = b.length →
    dot a b = ∑ i ∈ Finset.range a.length, a.getD i 0 * b.getD i 0
  | [], _, _ => by simp [dot]
  | x :: a, [], h => by simp at h
  | x :: a, y :: b, h => by
    have ih := dot_eq_sum_range a b (by simpa using h)
    simp only [dot, List.zipWith_cons_cons, List.sum_cons] at ih ⊢
    rw [List.length_cons, Finset.sum_range_succ']
    simp only [List.getD_cons_succ, List.getD_cons_zero]
    rw [← ih]
    ring

lemma sumSq_eq_dot_self (v : List ℝ) : sumSq v = dot v v := by
  induction v with
  | nil => simp [sumSq, dot]
  | cons x v ih =>
    simp only [sumSq, dot, List.map_cons, List.zipWith_cons_cons, List.sum_cons] at ih ⊢
    rw [ih]

lemma sumSq_nonneg (v : List ℝ) : 0 ≤ sumSq v := by
  induction v with
  | nil => simp [sumSq]
  | cons x v ih =>
    simp only [sumSq, List.map_cons, List.sum_cons] at ih ⊢
    have := mul_self_nonneg x
    linarith

lemma l2norm_nonneg (v : List ℝ) : 0 ≤ l2norm v := Real.sqrt_nonneg _

lemma l2norm_mul_self (v : List ℝ) : l2norm v * l2norm v = sumSq v :=
  Real.mul_self_sqrt (sumSq_nonneg v)

lemma l2norm_eq_zero_iff (v : List ℝ) : l2norm v = 0 ↔ sumSq v = 0 :=
  Real.sqrt_eq_zero (sumSq_nonneg v)

lemma eq_zero_of_sumSq_eq_zero {v : List ℝ} (h : sumSq v = 0) : ∀ x ∈ v, x = 0 := by
  induction v with
  | nil => simp
  | cons y v ih =>
    simp only [sumSq, List.map_cons, List.sum_cons] at h
    have h2 : 0 ≤ sumSq v := sumSq_nonneg v
    simp only [sumSq] at h2
    have hy : y * y = 0 := by
      have := mul_self_nonneg y
      linarith
    have hv : sumSq v = 0 := by
      simp only [sumSq]
      linarith [mul_self_nonneg y]
    intro x hx
    rcases List.mem_cons.mp hx with rfl | hx
    · exact mul_self_eq_zero.mp hy
    · exact ih hv x hx

lemma dot_eq_zero_of_right_zero : ∀ (a b : List ℝ), (∀ x ∈ b, x = 0) → dot a b = 0
  | [], _, _ => by simp [dot]
  | _ :: _, [], _ => by simp [dot]
  | x :: a, y :: b, h => by
    have hy : y = 0 := h y (List.mem_cons_self _ _)
    have ih := dot_eq_zero_of_right_zero a b (fun z hz => h z (List.mem_cons_of_mem _ hz))
    simp only [dot, List.zipWith_cons_cons, List.sum_cons] at ih ⊢
    rw [ih, hy]
    ring

lemma dot_map_div : ∀ (a b : List ℝ) (c d : ℝ),
    dot (a.map fun x => x / c) (b.map fun x => x / d) = dot a b / (c * d)
  | [], _, c, d => by simp [dot]
  | _ :: _, [], c, d => by simp [dot]
  | x :: a, y :: b, c, d => by
    have ih := dot_map_div a b c d
    simp only [dot, List.map_cons, List.zipWith_cons_cons, List.sum_cons] at ih ⊢
    rw [ih, div_mul_div_comm, add_div]

lemma sumSq_normalize {v : List ℝ} (h : l2norm v ≠ 0) : sumSq (normalize v) = 1 := by
  have hs : sumSq v ≠ 0 := fun h0 => h ((l2norm_eq_zero_iff v).mpr h0)
  rw [sumSq_eq_dot_self, normalize, if_neg h, dot_map_div, l2norm_mul_self,
    ← sumSq_eq_dot_self]
  exact div_self hs

lemma normalize_length (v : List ℝ) : (normalize v).length = v.length := by
  unfold normalize
  split <;> simp

lemma dot_le_sqrt_mul_sqrt (a b : List ℝ) (h : a.length = b.length) :
    dot a b ≤ Real.sqrt (sumSq a) * Real.sqrt (sumSq b) := by
  rw [dot_eq_sum_range a b h]
  have hcs := Real.sum_mul_le_sqrt_mul_sqrt (Finset.range a.length)
    (fun i => a.getD i 0) (fun i => b.getD i 0)
  have ha : ∑ i ∈ Finset.range a.length, a.getD i 0 ^ 2 = sumSq a := by
    rw [sumSq_eq_dot_self, dot_eq_sum_range a a rfl]
    simp [pow_two]
  have hb : ∑ i ∈ Finset.range a.length, b.getD i 0 ^ 2 = sumSq b := by
    rw [sumSq_eq_dot_self, dot_eq_sum_range b b rfl, h]
    simp [pow_two]
  rw [ha, hb] at hcs
  exact hcs

lemma dot_map_neg : ∀ (a b : List ℝ), dot a (b.map fun x => -x) = -(dot a b)
  | [], _ => by simp [dot]
  | _ :: _, [] => by simp [dot]
  | x :: a, y :: b => by
    have ih := dot_map_neg a b
    simp only [dot, List.map_cons, List.zipWith_cons_cons, List.sum_cons] at ih ⊢
    rw [ih]
    ring

lemma sumSq_map_neg (v : List ℝ) : sumSq (v.map fun x => -x) = sumSq v := by
  induction v with
  | nil => simp [sumSq]
  | cons x v ih =>
    simp only [sumSq, List.map_cons, List.sum_cons] at ih ⊢
    rw [ih]
    ring_nf

lemma neg_sqrt_le_dot (a b : List ℝ) (h : a.length = b.length) :
    -(Real.sqrt (sumSq a) * Real.sqrt (sumSq b)) ≤ dot a b := by
  have h' : a.length = (b.map fun x => -x).length := by simpa using h
  have hle := dot_le_sqrt_mul_sqrt a (b.map fun x => -x) h'
  rw [dot_map_neg, sumSq_map_neg] at hle
  linarith

lemma score_eq_cosine {q v : List ℝ} (hq : l2norm q ≠ 0) (hv : l2norm v ≠ 0) :
    score q v = dot q v / (l2norm q * l2norm v) := by
  unfold score normalize
  rw [if_neg hq, if_neg hv, dot_map_div]

lemma score_zero_right {q v : List ℝ} (hv : l2norm v = 0) : score q v = 0 := by
  unfold score normalize
  rw [if_pos hv]
  exact dot_eq_zero_of_right_zero _ v (eq_zero_of_sumSq_eq_zero ((l2norm_eq_zero_iff v).mp hv))

lemma score_bounds {q v : List ℝ} (hlen : q.length = v.length)
    (hq : l2norm q ≠ 0) (hv : l2norm v ≠ 0) : -1 ≤ score q v ∧ score q v ≤ 1 := by
  have hlen' : (normalize q).length = (normalize v).length := by
    rw [normalize_length, normalize_length, hlen]
  have h1 := dot_le_sqrt_mul_sqrt (normalize q) (normalize v) hlen'
  have h2 := neg_sqrt_le_dot (normalize q) (normalize v) hlen'
  rw [sumSq_normalize hq, sumSq_normalize hv, Real.sqrt_one] at h1 h2
  unfold score
  constructor
  · linarith
  · linarith

lemma score_self {v : List ℝ} (hv : l2norm v ≠ 0) : score v v = 1 := by
  unfold score
  rw [← sumSq_eq_dot_self]
  exact sumSq_normalize hv

/-! Helper lemmas about the comparator and the store operations. -/

lemma hitLE_trans (a b c : SearchHit μ) : hitLE a b → hitLE b c → hitLE a c := by
  simp only [hitLE, decide_eq_true_eq]
  exact fun h1 h2 => le_trans h2 h1

lemma hitLE_total (a b : SearchHit μ) : hitLE a b || hitLE b a := by
  simp only [hitLE, Bool.or_eq_true, decide_eq_true_eq]
  exact le_total b.score a.score

lemma hitLE_of_score_eq {a b : SearchHit μ} (h : a.score = b.score) : hitLE a b := by
  simp only [hitLE, decide_eq_true_eq]
  exact le_of_eq h.symm

lemma search_fst (s : VectorStore μ) (q : List ℝ) (k : Int) :
    (search s q k).1 = if q.length ≠ s.dimension then .error .DimensionMismatch
      else if k ≤ 0 then .error .InvalidK
      else .ok ((rankedHits s q).take k.toNat) := by
  unfold search
  split
  · rfl
  · split <;> rfl

lemma search_snd (s : VectorStore μ) (q : List ℝ) (k : Int) : (search s q k).2 = s := by
  unfold search
  split
  · rfl
  · split <;> rfl

lemma insert_ok {s : VectorStore μ} {v : List ℝ} (m : μ) (h : v.length = s.dimension) :
    insert s v m = (.ok (toString s.nextId),
      { dimension := s.dimension,
        documents := s.documents ++ [{ id := toString s.nextId, vector := v, metadata := m }],
        nextId := s.nextId + 1 }) := by
  unfold insert
  rw [if_neg (by simp [h])]

lemma insert_err {s : VectorStore μ} {v : List ℝ} (m : μ) (h : v.length ≠ s.dimension) :
    insert s v m = (.error .DimensionMismatch, s) := by
  unfold insert
  rw [if_pos (by simp [h])]

/-- C1: for every store state with `n` documents and every valid query
(vector of the store's dimension, `k > 0`), `search` succeeds and
returns the top `min(k, n)` of the ranked hit list; the returned hits
are sorted by descending score; the ranked list is a permutation of the
per-document hits; and any two hits with equal scores that appear in
insertion order among the per-document hits still appear in that order
in the ranked list (stable tie-break). -/
theorem search_sorted_stable (s : VectorStore μ) (q : List ℝ) (k : Int)
    (hq : q.length = s.dimension) (hk : 0 < k) :
    (search s q k).1 = .ok ((rankedHits s q).take k.toNat) ∧
    ((rankedHits s q).take k.toNat).length = min k.toNat s.documents.length ∧
    ((rankedHits s q).take k.toNat).Pairwise (fun a b => b.score ≤ a.score) ∧
    (rankedHits s q).Perm (s.documents.map (docHit q)) ∧
    (∀ a b : SearchHit μ, a.score = b.score →
      [a, b].Sublist (s.documents.map (docHit q)) → [a, b].Sublist (rankedHits s q)) := by
  refine ⟨?_, ?_, ?_, ?_, ?_⟩
  · rw [search_fst, if_neg (by simp [hq]), if_neg (by omega)]
  · rw [List.length_take]
    unfold rankedHits
    rw [List.length_mergeSort, List.length_map]
  · apply List.Pairwise.sublist (List.take_sublist _ _)
    have hs := @List.sorted_mergeSort (SearchHit μ) hitLE hitLE_trans hitLE_total
      (s.documents.map (docHit q))
    unfold rankedHits
    exact hs.imp fun h => by simpa [hitLE, decide_eq_true_eq] using h
  · exact List.mergeSort_perm _ _
  · intro a b hab hsub
    exact List.pair_sublist_mergeSort hitLE_trans hitLE_total (hitLE_of_score_eq hab) hsub

/-- C2: the similarity score is the cosine of the two vectors — the
dot product divided by the product of the L2 norms — for non-zero
vectors; a zero-norm vector scores 0 against any query; scores of
non-zero vectors of a common dimension lie in `[-1, 1]`; and searching
with the very vector just inserted into an empty store returns that
document first with score exactly 1 (the real-number idealisation of
"1.0 within floating-point tolerance"). -/
theorem score_cosine_properties :
    (∀ q v : List ℝ, l2norm q ≠ 0 → l2norm v ≠ 0 →
       score q v = dot q v / (l2norm q * l2norm v)) ∧
    (∀ q v : List ℝ, l2norm v = 0 → score q v = 0) ∧
    (∀ q v : List ℝ, q.length = v.length → l2norm q ≠ 0 → l2norm v ≠ 0 →
       -1 ≤ score q v ∧ score q v ≤ 1) ∧
    (∀ (D : Nat) (v : List ℝ) (m : μ) (k : Int), v.length = D → l2norm v ≠ 0 → 1 ≤ k →
       (insert (⟨D, [], 0⟩ : VectorStore μ) v m).1 = .ok "0" ∧
       (search (insert (⟨D, [], 0⟩ : VectorStore μ) v m).2 v k).1 =
         .ok [{ document_id := "0", score := 1, metadata := m }]) := by
  refine ⟨fun q v hq hv => score_eq_cosine hq hv,
          fun q v hv => score_zero_right hv,
          fun q v hlen hq hv => score_bounds hlen hq hv,
          fun D v m k hlen hv hk => ?_⟩
  have hins := insert_ok (s := (⟨D, [], 0⟩ : VectorStore μ)) (v := v) m hlen
  have h0 : toString (0 : Nat) = "0" := by rfl
  rw [hins]
  refine ⟨by rw [show ((⟨D, [], 0⟩ : VectorStore μ)).nextId = 0 from rfl, h0], ?_⟩
  rw [search_fst]
  rw [if_neg (by simp [hlen]), if_neg (by omega)]
  unfold rankedHits docHit
  simp only [List.nil_append, List.map_cons, List.map_nil, List.mergeSort_singleton]
  rw [List.take_of_length_le (by simp; omega)]
  rw [score_self hv, h0]

/-- C3: every validation failure — wrong-length vector on `insert`,
unequal input sequence lengths or any wrong-length vector on
`batch_insert`, `k ≤ 0` on `search` — returns its error with the store
state exactly unchanged; in particular a batch containing any invalid
vector inserts nothing. -/
theorem validation_leaves_state_unchanged :
    (∀ (s : VectorStore μ) (v : List ℝ) (m : μ), v.length ≠ s.dimension →
       insert s v m = (.error .DimensionMismatch, s)) ∧
    (∀ (s : VectorStore μ) (vs : List (List ℝ)) (ms : List μ), vs.length ≠ ms.length →
       batch_insert s vs ms = (.error .LengthMismatch, s)) ∧
    (∀ (s : VectorStore μ) (vs : List (List ℝ)) (ms : List μ), vs.length = ms.length →
       (∃ v ∈ vs, v.length ≠ s.dimension) →
       batch_insert s vs ms = (.error .DimensionMismatch, s)) ∧
    (∀ (s : VectorStore μ) (q : List ℝ) (k : Int), q.length = s.dimension → k ≤ 0 →
       search s q k = (.error .InvalidK, s)) := by
  refine ⟨fun s v m h => insert_err m h, fun s vs ms h => ?_, fun s vs ms hlen hbad => ?_,
          fun s q k hq hk => ?_⟩
  · unfold batch_insert
    rw [if_pos (by simp [h])]
  · unfold batch_insert
    rw [if_neg (by simp [hlen])]
    rw [if_pos]
    rcases hbad with ⟨v, hv, hvlen⟩
    simp only [List.any_eq_true, decide_eq_true_eq]
    exact ⟨v, hv, hvlen⟩
  · unfold search
    rw [if_neg (by simp [hq]), if_pos hk]

lemma map_toSaved_toDoc (l : List (Document μ)) :
    ((l.map fun d => ({ id := d.id, vector := d.vector, metadata := d.metadata } :
        SavedDocument μ)).map fun d =>
      ({ id := d.id, vector := d.vector, metadata := d.metadata } : Document μ)) = l := by
  induction l with
  | nil => rfl
  | cons d l ih => simp [ih]

lemma load_save_eval (s s' : VectorStore μ) (hwf : WF s) (hd : s'.dimension = s.dimension) :
    load s' (save s) = (.ok (), ⟨s.dimension, s.documents, s.documents.length⟩) := by
  have h1 : ¬((save s).dimension ≠ s'.dimension) := by simp [save, hd]
  have h2 : ¬((save s).documents.any
      (fun d => decide (d.vector.length ≠ (save s).dimension)) = true) := by
    intro hany
    rw [List.any_eq_true] at hany
    obtain ⟨x, hx, hlen⟩ := hany
    rw [decide_eq_true_eq] at hlen
    simp only [save, List.mem_map] at hx
    obtain ⟨e, he, rfl⟩ := hx
    exact hlen (by simpa [save] using hwf e he)
  unfold load
  rw [if_neg h1, if_neg h2]
  unfold save
  rw [map_toSaved_toDoc]
  simp

lemma search_fst_congr {s₁ s₂ : VectorStore μ} (hd : s₁.dimension = s₂.dimension)
    (hdocs : s₁.documents = s₂.documents) (q : List ℝ) (k : Int) :
    (search s₁ q k).1 = (search s₂ q k).1 := by
  rw [search_fst, search_fst]
  unfold rankedHits
  rw [hd, hdocs]

/-- C4: `load(save())` reproduces an identical state — the same
dimension and the same ordered documents with identical ids, vectors
and metadata — so search answers are identical before and after the
round-trip; and loading the blob into any store of the same
construction dimension replaces all its prior state with the saved
documents. -/
theorem load_save_roundtrip (s : VectorStore μ) (hwf : WF s) :
    (load s (save s)).1 = .ok () ∧
    (load s (save s)).2.dimension = s.dimension ∧
    (load s (save s)).2.documents = s.documents ∧
    (∀ s' : VectorStore μ, s'.dimension = s.dimension →
       (load s' (save s)).2.dimension = s.dimension ∧
       (load s' (save s)).2.documents = s.documents) ∧
    (∀ (q : List ℝ) (k : Int), (search (load s (save s)).2 q k).1 = (search s q k).1) := by
  have h := load_save_eval s s hwf rfl
  refine ⟨by rw [h], by rw [h], by rw [h],
    fun s' hd => ⟨by rw [load_save_eval s s' hwf hd], by rw [load_save_eval s s' hwf hd]⟩,
    fun q k => ?_⟩
  rw [h]
  exact @search_fst_congr μ ⟨s.dimension, s.documents, s.documents.length⟩ s rfl rfl q k

/-- C5: against an empty store, a query whose embedding succeeds and
whose generation succeeds on the bare question still ends in `Success`:
retrieval returns the empty hit list (not an error), the prompt
degrades to the question alone, and generation runs on it without
retrieved context. -/
theorem empty_store_query_success (enc : String → Option (List ℝ))
    (gen : String → Option String) (textOf : μ → String) (maxLen : Nat)
    (s : VectorStore μ) (qt : String) (k : Int) (v : List ℝ) (a : String)
    (hempty : s.documents = []) (henc : enc qt = some v)
    (hdim : v.length = s.dimension) (hk : 0 < k)
    (hgen : gen qt = some a) (hsane : sanityCheck maxLen a = true) :
    retrieve enc s qt k = .ok [] ∧
    buildPrompt textOf ([] : List (SearchHit μ)) qt = qt ∧
    query enc gen textOf maxLen s qt k = .Success a [] := by
  have hret : retrieve enc s qt k = .ok [] := by
    simp only [retrieve, henc]
    rw [if_neg (by simp [hdim])]
    rw [search_fst, if_neg (by simp [hdim]), if_neg (by omega)]
    unfold rankedHits
    rw [hempty]
    simp
  have hbp : buildPrompt textOf ([] : List (SearchHit μ)) qt = qt := by simp [buildPrompt]
  refine ⟨hret, hbp, ?_⟩
  simp only [query, hret, hbp, hgen]
  rw [if_pos hsane]

/-- C6: whenever retrieval succeeds (with whatever hits) but the
generation capability errors or times out (modelled as `none`) or
returns an answer failing the sanity check, the whole call returns the
single combined `GenerationFailed` outcome, and the retrieval result is
untouched by the generation failure. -/
theorem generation_failure_isolation (enc : String → Option (List ℝ))
    (gen : String → Option String) (textOf : μ → String) (maxLen : Nat)
    (s : VectorStore μ) (qt : String) (k : Int) (hits : List (SearchHit μ))
    (hret : retrieve enc s qt k = .ok hits)
    (hfail : gen (buildPrompt textOf hits qt) = none ∨
      ∃ a, gen (buildPrompt textOf hits qt) = some a ∧ sanityCheck maxLen a = false) :
    query enc gen textOf maxLen s qt k = .GenerationFailed .GenerationFailure ∧
    retrieve enc s qt k = .ok hits := by
  refine ⟨?_, hret⟩
  simp only [query, hret]
  rcases hfail with h | ⟨a, hg, hs⟩
  · simp only [h]
  · simp only [hg]
    rw [if_neg (by simp [hs])]

lemma insertAll_preserves : ∀ (s : VectorStore μ) (vs : List (List ℝ)) (ms : List μ),
    WF s → (∀ v ∈ vs, v.length = s.dimension) →
    WF (insertAll s vs ms).2 ∧ (insertAll s vs ms).2.dimension = s.dimension
  | s, [], ms, hwf, _ => ⟨hwf, rfl⟩
  | s, _ :: _, [], hwf, _ => ⟨hwf, rfl⟩
  | s, v :: vs, m :: ms, hwf, hlen => by
    have hv := hlen v (List.mem_cons_self _ _)
    have hrest : ∀ w ∈ vs, w.length = s.dimension :=
      fun w hw => hlen w (List.mem_cons_of_mem _ hw)
    have hwf₁ : WF (⟨s.dimension, s.documents ++ [⟨toString s.nextId, v, m⟩],
        s.nextId + 1⟩ : VectorStore μ) := by
      intro d hd
      rcases List.mem_append.mp hd with hd | hd
      · exact hwf d hd
      · simp at hd
        subst hd
        exact hv
    have ih := insertAll_preserves
      (⟨s.dimension, s.documents ++ [⟨toString s.nextId, v, m⟩], s.nextId + 1⟩ : VectorStore μ)
      vs ms hwf₁ hrest
    simp only [insertAll, insert_ok m hv]
    exact ⟨ih.1, ih.2⟩

lemma applyOp_preserves (s : VectorStore μ) (op : StoreOp μ) (h : WF s) :
    WF (applyOp s op) ∧ (applyOp s op).dimension = s.dimension := by
  cases op with
  | insertOp v m =>
    show WF (insert s v m).2 ∧ (insert s v m).2.dimension = s.dimension
    by_cases hv : v.length = s.dimension
    · rw [insert_ok m hv]
      refine ⟨?_, rfl⟩
      intro d hd
      rcases List.mem_append.mp hd with hd | hd
      · exact h d hd
      · simp at hd
        subst hd
        exact hv
    · rw [insert_err m hv]
      exact ⟨h, rfl⟩
  | batchInsertOp vs ms =>
    show WF (batch_insert s vs ms).2 ∧ (batch_insert s vs ms).2.dimension = s.dimension
    unfold batch_insert
    by_cases h1 : vs.length = ms.length
    case neg =>
      rw [if_pos (by simp [h1])]
      exact ⟨h, rfl⟩
    case pos =>
      rw [if_neg (by simp [h1])]
      by_cases h2 : vs.any (fun v => decide (v.length ≠ s.dimension)) = true
      · rw [if_pos h2]
        exact ⟨h, rfl⟩
      · rw [if_neg h2]
        have hall : ∀ v ∈ vs, v.length = s.dimension := by
          intro v hv
          by_contra hc
          exact h2 (List.any_eq_true.mpr ⟨v, hv, by simpa using hc⟩)
        simpa using insertAll_preserves s vs ms h hall
  | searchOp q k =>
    show WF (search s q k).2 ∧ (search s q k).2.dimension = s.dimension
    rw [search_snd]
    exact ⟨h, rfl⟩
  | saveOp => exact ⟨h, rfl⟩
  | loadOp b =>
    show WF (load s b).2 ∧ (load s b).2.dimension = s.dimension
    unfold load
    by_cases h1 : b.dimension = s.dimension
    case neg =>
      rw [if_pos (by simp [h1])]
      exact ⟨h, rfl⟩
    case pos =>
      rw [if_neg (by simp [h1])]
      by_cases h2 : b.documents.any (fun d => decide (d.vector.length ≠ b.dimension)) = true
      · rw [if_pos h2]
        exact ⟨h, rfl⟩
      · rw [if_neg h2]
        refine ⟨?_, h1⟩
        intro d hd
        simp only [List.mem_map] at hd
        obtain ⟨e, he, rfl⟩ := hd
        have he2 : ¬(e.vector.length ≠ b.dimension) := by
          intro hc
          exact h2 (List.any_eq_true.mpr ⟨e, he, by simpa using hc⟩)
        show e.vector.length = b.dimension
        exact not_ne_iff.mp he2
  | statsOp => exact ⟨h, rfl⟩

/-- C7: along every sequence of store operations (insert, batch
insert, search, save, load, stats) starting from a well-formed store of
dimension D, every reachable state is well-formed — zero documents or
all vectors of length D — and the store's dimension is still D. -/
theorem store_invariant (s : VectorStore μ) (ops : List (StoreOp μ)) (h : WF s) :
    WF (runOps s ops) ∧ (runOps s ops).dimension = s.dimension := by
  induction ops generalizing s with
  | nil => exact ⟨h, rfl⟩
  | cons op ops ih =>
    have h1 := applyOp_preserves s op h
    have h2 := ih (applyOp s op) h1.1
    unfold runOps at h2 ⊢
    rw [List.foldl_cons]
    exact ⟨h2.1, h2.2.trans h1.2⟩

/-- C8: search never mutates the store — the state coming out of a
search is exactly the state that went in, with every stored document
(and in particular every raw vector) unchanged; normalization happens
only on values derived at search time. -/
theorem search_leaves_store_unchanged (s : VectorStore μ) (q : List ℝ) (k : Int) :
    (search s q k).2 = s ∧ (search s q k).2.documents = s.documents := by
  have h := search_snd s q k
  exact ⟨h, by rw [h]⟩

/-- C9: the guard of `handleSubmit` — with empty or whitespace-only
input, or while a previous request is loading, no HTTP request is
issued and the component state is returned unchanged. -/
theorem handleSubmit_guard_noop (s : AppState)
    (h : s.input.trim = "" ∨ s.loading = true) :
    handleSubmitStart s = (s, none) := by
  unfold handleSubmitStart
  rw [if_pos h]

/-- C10: for every `/query` response, the frontend appends exactly one
assistant message whose rendered content is exactly the backend's
`answer` field — no content-based filtering or rewriting, for every
answer, including answers containing the word "error". -/
theorem response_displayed_verbatim (s : AppState) (data : QueryResponse) :
    (handleSubmitSuccess s data).messages =
      s.messages ++ [{ type := "assistant", content := data.answer,
                       retrievedDocs := some data.retrieved_documents }] ∧
    renderedText { type := "assistant", content := data.answer,
                   retrievedDocs := some data.retrieved_documents } = data.answer ∧
    (handleSubmitSuccess s data).messages.length = s.messages.length + 1 := by
  refine ⟨rfl, rfl, ?_⟩
  simp [handleSubmitSuccess]

/-! Concrete fixtures used to witness the theorems above on explicit
inputs (mirroring the end-to-end scenario of spec §8: dimension 2,
`[1,0] → "doc-A"`, `[0,1] → "doc-B"`). -/

def docA : Document String := { id := "0", vector := [1, 0], metadata := "doc-A" }

def docB : Document String := { id := "1", vector := [0, 1], metadata := "doc-B" }

def exampleStore : VectorStore String := { dimension := 2, documents := [docA, docB], nextId := 2 }

def emptyStore : VectorStore String := { dimension := 2, documents := [], nextId := 0 }

def oneDocStore : VectorStore String := { dimension := 2, documents := [docA], nextId := 1 }

lemma exampleStore_wf : WF exampleStore := by
  intro d hd
  simp only [exampleStore, List.mem_cons, List.not_mem_nil, or_false] at hd
  rcases hd with rfl | rfl <;> rfl

/-- A batch of ten valid two-dimensional vectors with one invalid
three-dimensional vector among them, for the atomicity witness. -/
def batchVecs : List (List ℝ) :=
  [[1, 0], [1, 0], [1, 0], [1, 0], [1, 0], [1, 0, 3], [1, 0], [1, 0], [1, 0], [1, 0], [1, 0]]

/-- Metadata entries matching `batchVecs` in length. -/
def batchMetas : List String :=
  ["t1", "t2", "t3", "t4", "t5", "t6", "t7", "t8", "t9", "t10", "t11"]

theorem search_sorted_stable_witness :
    (search exampleStore [1, 0] 1).1 = .ok ((rankedHits exampleStore [1, 0]).take (1 : Int).toNat) ∧
    ((rankedHits exampleStore [1, 0]).take (1 : Int).toNat).length =
      min (1 : Int).toNat exampleStore.documents.length := by
  have h := search_sorted_stable exampleStore [1, 0] 1 rfl (by decide)
  exact ⟨h.1, h.2.1⟩

theorem score_cosine_properties_witness :
    (-1 ≤ score [(1 : ℝ), 0] [0, 1] ∧ score [(1 : ℝ), 0] [0, 1] ≤ 1) ∧
    (search (insert (⟨2, [], 0⟩ : VectorStore String) [(1 : ℝ), 0] "doc-A").2 [(1 : ℝ), 0] 3).1 =
      .ok [{ document_id := "0", score := 1, metadata := "doc-A" }] := by
  have hnz : l2norm [(1 : ℝ), 0] ≠ 0 := by simp [l2norm, sumSq]
  have hnz2 : l2norm [(0 : ℝ), 1] ≠ 0 := by simp [l2norm, sumSq]
  refine ⟨(score_cosine_properties (μ := String)).2.2.1 [1, 0] [0, 1] rfl hnz hnz2, ?_⟩
  exact ((score_cosine_properties (μ := String)).2.2.2 2 [1, 0] "doc-A" 3 rfl hnz (by decide)).2

theorem validation_leaves_state_unchanged_witness :
    insert exampleStore [(1 : ℝ), 0, 3] "X" = (.error .DimensionMismatch, exampleStore) ∧
    batch_insert exampleStore batchVecs batchMetas = (.error .DimensionMismatch, exampleStore) ∧
    batch_insert exampleStore [[(1 : ℝ), 0]] [] = (.error .LengthMismatch, exampleStore) ∧
    search exampleStore [(1 : ℝ), 0] 0 = (.error .InvalidK, exampleStore) := by
  refine ⟨validation_leaves_state_unchanged.1 exampleStore [1, 0, 3] "X" (by decide),
          validation_leaves_state_unchanged.2.2.1 exampleStore batchVecs batchMetas rfl
            ⟨[1, 0, 3], by simp [batchVecs], by decide⟩,
          validation_leaves_state_unchanged.2.1 exampleStore [[1, 0]] [] (by decide),
          validation_leaves_state_unchanged.2.2.2 exampleStore [1, 0] 0 rfl (by decide)⟩

theorem load_save_roundtrip_witness :
    (load exampleStore (save exampleStore)).1 = .ok () ∧
    (load exampleStore (save exampleStore)).2.documents = exampleStore.documents ∧
    (search (load exampleStore (save exampleStore)).2 [(1 : ℝ), 0] 2).1 =
      (search exampleStore [(1 : ℝ), 0] 2).1 := by
  have h := load_save_roundtrip exampleStore exampleStore_wf
  exact ⟨h.1, h.2.2.1, h.2.2.2.2 [1, 0] 2⟩

theorem empty_store_query_success_witness :
    retrieve (fun _ => some [(1 : ℝ), 0]) emptyStore "hello" 3 = .ok [] ∧
    query (fun _ => some [(1 : ℝ), 0]) (fun _ => some "ans") (fun t : String => t) 100
      emptyStore "hello" 3 = .Success "ans" [] := by
  have h := empty_store_query_success (fun _ => some [(1 : ℝ), 0]) (fun _ => some "ans")
    (fun t : String => t) 100 emptyStore "hello" 3 [1, 0] "ans" rfl rfl rfl (by decide) rfl
    (by decide)
  exact ⟨h.1, h.2.2⟩

theorem generation_failure_isolation_witness :
    query (fun _ => some [(1 : ℝ), 0]) (fun _ => none) (fun t : String => t) 100
      oneDocStore "q" 3 = .GenerationFailed .GenerationFailure ∧
    retrieve (fun _ => some [(1 : ℝ), 0]) oneDocStore "q" 3 =
      .ok [{ document_id := "0", score := score [1, 0] [1, 0], metadata := "doc-A" }] := by
  have hret : retrieve (fun _ => some [(1 : ℝ), 0]) oneDocStore "q" 3 =
      .ok [{ document_id := "0", score := score [1, 0] [1, 0], metadata := "doc-A" }] := by
    simp only [retrieve]
    rw [if_neg (by decide)]
    rw [search_fst, if_neg (by decide), if_neg (by decide)]
    unfold rankedHits docHit
    simp [oneDocStore, docA]
  exact generation_failure_isolation _ _ _ _ _ _ _ _ hret (Or.inl rfl)

theorem store_invariant_witness :
    WF (runOps exampleStore
      [StoreOp.insertOp [1, 0] "X", StoreOp.searchOp [1, 0] 1, StoreOp.saveOp]) ∧
    (runOps exampleStore
      [StoreOp.insertOp [1, 0] "X", StoreOp.searchOp [1, 0] 1, StoreOp.saveOp]).dimension =
      exampleStore.dimension :=
  store_invariant exampleStore
    [StoreOp.insertOp [1, 0] "X", StoreOp.searchOp [1, 0] 1, StoreOp.saveOp] exampleStore_wf

theorem handleSubmit_guard_noop_witness :
    handleSubmitStart ⟨[], "hi", true, "url"⟩ = (⟨[], "hi", true, "url"⟩, none) :=
  handleSubmit_guard_noop _ (Or.inr rfl)

end ChatSystemBot
